import Mathlib

/-!
Verification of the nephos deployment orchestration layer
(`nephos/helpers/helm.py` and `nephos/composer/install.py`).

The embedding models each Python function as a pure Lean function.
Side effects are made explicit:

* the shell executor (`nephos.helpers.misc.execute`) is an abstract
  function `String → Option String` giving the stdout of a command
  (`none` models a failed command, mirroring `execute` returning `None`);
* each orchestration function additionally returns the ordered list of
  command strings it handed to the executor (its trace);
* Python exceptions are modelled with `Except NephosError`;
* the cluster's secret / config-map stores are association lists.
-/

set_option autoImplicit false

namespace Nephos

/-- Python truthiness of an `execute` result: `None` and the empty
string are falsy, every other string is truthy. -/
def pyTruthy : Option String → Bool
  | none => false
  | some s => !(s == "")

/-- Python `str(x)` for an optional string, as used by `"...{x}".format`:
`None` prints as the literal `"None"`. -/
def pyStr : Option String → String
  | none => "None"
  | some s => s

/-- The errors raised by the modelled code paths. -/
inductive NephosError where
  /-- A cluster-native lookup (secret, config-map, ingress) found nothing;
  models the k8s client's not-found `ApiException`. -/
  | resourceNotFound (name namespc : String)
  /-- Python `KeyError` from indexing a `dict` with a missing key. -/
  | keyError (key : String)
  /-- A fatal invariant violation (`raise Exception(msg)`). -/
  | fatal (msg : String)
  /-- Python `ValueError` from tuple unpacking of the wrong arity. -/
  | valueError (msg : String)
  deriving DecidableEq

/-- Does the error come from a cluster-native not-found lookup? -/
def NephosError.isResourceNotFound : NephosError → Bool
  | .resourceNotFound _ _ => true
  | _ => false

/-! ## `nephos/helpers/helm.py` -/

/-- The `HelmSet` named tuple: an inline `--set` variable
(`key`, `value`, `set_string` defaulting to `False`). -/
structure HelmSet where
  key : String
  value : String
  set_string : Bool := false
  deriving DecidableEq

/-- The `HelmPreserve` named tuple: a reference to a secret value that an
upgrade must read back and re-inject. -/
structure HelmPreserve where
  secret_namespace : String
  secret_name : String
  data_item : String
  values_path : String
  deriving DecidableEq

/-- One entry of the string built by `helm_env_vars` / `helm_preserve`:
`" --set{} {}={}".format("-string" if item.set_string else "", key, value)`. -/
def helmSetString (item : HelmSet) : String :=
  " --set" ++ (if item.set_string then "-string" else "")
    ++ " " ++ item.key ++ "=" ++ item.value

/-- `helm_env_vars`: render the inline variables to a single flags string
(`"".join` of the per-item strings, in input order). -/
def helm_env_vars (env_vars : List HelmSet) : String :=
  String.join (env_vars.map helmSetString)

/-- The cluster's secrets, keyed by `(secret_name, namespace)`; each secret's
data is an association list from data key to value. -/
abbrev SecretStore := List ((String × String) × List (String × String))

/-- Modelled from the spec: `secret_read` (from `nephos.helpers.k8s`, not
under `src/`) reads the named secret from the cluster and fails with a
not-found error when the secret is absent. -/
def secret_read (store : SecretStore) (name namespc : String) :
    Except NephosError (List (String × String)) :=
  match store.lookup (name, namespc) with
  | some data => .ok data
  | none => .error (.resourceNotFound name namespc)

/-- Python `dict` indexing `d[k]`: raises `KeyError` when the key is absent. -/
def dictGet (d : List (String × String)) (k : String) : Except NephosError String :=
  match d.lookup k with
  | some v => .ok v
  | none => .error (.keyError k)

/-- The loop body of `helm_preserve`: for each `HelmPreserve` item read the
secret (`secret_read`), index its data with the item's `data_item`, and
append `HelmSet(values_path, value)` (so `set_string` keeps its `False`
default). The first failure aborts the whole loop. -/
def helm_preserve_vars (store : SecretStore) :
    List HelmPreserve → Except NephosError (List HelmSet)
  | [] => .ok []
  | item :: rest =>
    match secret_read store item.secret_name item.secret_namespace with
    | .error e => .error e
    | .ok secret_data =>
      match dictGet secret_data item.data_item with
      | .error e => .error e
      | .ok v =>
        match helm_preserve_vars store rest with
        | .error e => .error e
        | .ok vars => .ok ({ key := item.values_path, value := v } :: vars)

/-- `helm_preserve`: resolve the preserved secrets and render the resulting
variables exactly as `helm_env_vars` does. -/
def helm_preserve (store : SecretStore) (preserve : List HelmPreserve) :
    Except NephosError String :=
  match helm_preserve_vars store preserve with
  | .error e => .error e
  | .ok env_vars => .ok (String.join (env_vars.map helmSetString))

/-- The existence probe `"helm status {release}"`. -/
def helm_status_command (release : String) : String :=
  "helm status " ++ release

/-- The install command
`"helm install {repo}/{app} -n {name} --namespace {ns}" + extra_vars`. -/
def helm_install_command (repo app release namespc extra_vars : String) : String :=
  "helm install " ++ repo ++ "/" ++ app ++ " -n " ++ release
    ++ " --namespace " ++ namespc ++ extra_vars

/-- The upgrade command `"helm upgrade {name} {repo}/{app}" + (extra_vars or "")`. -/
def helm_upgrade_command (repo app release extra_vars : String) : String :=
  "helm upgrade " ++ release ++ " " ++ repo ++ "/" ++ app ++ extra_vars

/-- `helm_install`: probe the release status; when the probe is falsy, issue
the install command; otherwise do nothing further. The result is the ordered
trace of commands handed to the executor. -/
def helm_install (exec : String → Option String)
    (repo app release namespc extra_vars : String) : List String :=
  let ls_res := exec (helm_status_command release)
  if !(pyTruthy ls_res) then
    [helm_status_command release,
     helm_install_command repo app release namespc extra_vars]
  else
    [helm_status_command release]

/-- `helm_upgrade`: probe the release status; when the probe is truthy, issue
the upgrade command; otherwise raise
`Exception("Cannot update a Helm release that is not running")`. The result
is the trace of commands together with the outcome. -/
def helm_upgrade (exec : String → Option String)
    (repo app release extra_vars : String) :
    List String × Except NephosError Unit :=
  let ls_res := exec (helm_status_command release)
  if pyTruthy ls_res then
    ([helm_status_command release,
      helm_upgrade_command repo app release extra_vars], .ok ())
  else
    ([helm_status_command release],
     .error (.fatal "Cannot update a Helm release that is not running"))

/-! ## `nephos/composer/install.py` -/

/-- The cluster's config maps, keyed by `(name, namespace)`; the payload is
an association list from file name to content. -/
abbrev CMStore := List ((String × String) × List (String × String))

/-- Modelled from the spec: `cm_read` (from `nephos.helpers.k8s`, not under
`src/`) reads a config map and raises the not-found `ApiException` when it
is absent. -/
def cm_read (store : CMStore) (name namespc : String) :
    Except NephosError (List (String × String)) :=
  match store.lookup (name, namespc) with
  | some data => .ok data
  | none => .error (.resourceNotFound name namespc)

/-- Modelled from the spec: `cm_create` (from `nephos.helpers.k8s`, not under
`src/`) creates a config map with the given data. -/
def cm_create (store : CMStore) (data : List (String × String))
    (name namespc : String) : CMStore :=
  ((name, namespc), data) :: store

/-- `composer_connection`: try `cm_read` on the connection config map; only
when that raises the not-found `ApiException` synthesize the
`connection.json` content (via `json_ct`, here the caller-supplied
`connection_json` since `nephos.composer.connection_template` is not under
`src/`) and `cm_create` the map. Returns the new store and whether a create
was performed. -/
def composer_connection (store : CMStore)
    (secret_connection namespc connection_json : String) : CMStore × Bool :=
  match cm_read store secret_connection namespc with
  | .ok _ => (store, false)
  | .error _ =>
      (cm_create store [("connection.json", connection_json)]
        secret_connection namespc, true)

/-- The composer CLI's card store inside the pod: the set of imported
identity cards. -/
structure PodState where
  cards : List String
  deriving DecidableEq

/-- The probe `"composer card list --card {admin_name}@{network}"`. -/
def card_list_command (user_name : String) (network : Option String) : String :=
  "composer card list --card " ++ user_name ++ "@" ++ pyStr network

/-- `roles_string`: `"-r " + " -r ".join(roles) + " "` when `roles` is
truthy, otherwise the empty string. -/
def roles_string (roles : List String) : String :=
  if !roles.isEmpty then "-r " ++ String.intercalate " -r " roles ++ " " else ""

/-- The `composer card create` command built by `setup_card`; the
`"-n {network} "` part is included only when `network` is truthy. -/
def card_create_command (msp_path user_name : String) (roles : List String)
    (network : Option String) : String :=
  "composer card create "
    ++ (if pyTruthy network then "-n " ++ pyStr network ++ " " else "")
    ++ "-p /hl_config/hlc-connection/connection.json "
    ++ "-u " ++ user_name ++ " -c " ++ msp_path ++ "/signcerts/cert.pem "
    ++ "-k " ++ msp_path ++ "/keystore/key.pem "
    ++ roles_string roles
    ++ "--file /home/composer/" ++ user_name ++ "@" ++ pyStr network

/-- The command
`"composer card import --file /home/composer/{admin_name}@{network}.card"`. -/
def card_import_command (user_name : String) (network : Option String) : String :=
  "composer card import --file /home/composer/"
    ++ user_name ++ "@" ++ pyStr network ++ ".card"

/-- Modelled from the spec: the pod's composer CLI answers the card-list
probe with output exactly when the card is in the store (listing it), and
with no output otherwise. -/
def card_list_result (st : PodState) (card : String) : Option String :=
  if card ∈ st.cards then some ("Card " ++ card) else none

/-- `setup_card`: list cards matching `{user_name}@{network}`; when the
probe is falsy, run `composer card create` then `composer card import`
(which adds the card to the pod's store); otherwise only the probe runs.
Returns the new pod state and the trace of commands executed in the pod. -/
def setup_card (st : PodState) (msp_path user_name : String)
    (roles : List String) (network : Option String) : PodState × List String :=
  let card := user_name ++ "@" ++ pyStr network
  let ls_res := card_list_result st card
  if !(pyTruthy ls_res) then
    ({ cards := card :: st.cards },
     [card_list_command user_name network,
      card_create_command msp_path user_name roles network,
      card_import_command user_name network])
  else
    (st, [card_list_command user_name network])

/-- `setup_admin`: `setup_card` with the fixed MSP path, the `PeerAdmin`
user, the two admin roles, and `network` left at its `None` default. -/
def setup_admin (st : PodState) : PodState × List String :=
  setup_card st "/hl_config/admin" "PeerAdmin" ["PeerAdmin", "ChannelAdmin"] none

/-! ### Archive-filename parsing in `install_network`

Python's `str.split(sep)` (for a non-empty separator) and the two-variable
unpacking `a, b = lst` are modelled on `List Char`.  `splitGo` / `countGo`
carry a fuel argument (instantiated with the string length) so that both
are structurally recursive and kernel-reducible. -/

/-- One scan step of Python `s.split(sep)`: cut at each non-overlapping
occurrence of `sep`, scanning left to right. -/
def splitGo (sep : List Char) : Nat → List Char → List Char → List (List Char)
  | 0, s, acc => [acc ++ s]
  | _ + 1, [], acc => [acc]
  | fuel + 1, c :: rest, acc =>
    if sep.isPrefixOf (c :: rest) then
      acc :: splitGo sep fuel (rest.drop (sep.length - 1)) []
    else
      splitGo sep fuel rest (acc ++ [c])

/-- Python `s.split(sep)` for a non-empty `sep`, on character lists. -/
def splitOnSep (sep s : List Char) : List (List Char) :=
  splitGo sep s.length s []

/-- Fueled count of the non-overlapping occurrences of `sep`, following the
same left-to-right scan as `splitGo`. -/
def countGo (sep : List Char) : Nat → List Char → Nat
  | 0, _ => 0
  | _ + 1, [] => 0
  | fuel + 1, c :: rest =>
    if sep.isPrefixOf (c :: rest) then
      countGo sep fuel (rest.drop (sep.length - 1)) + 1
    else
      countGo sep fuel rest

/-- The number of non-overlapping occurrences of `sep` in `s`, scanning left
to right (what Python `s.split(sep)` cuts at). -/
def countOcc (sep s : List Char) : Nat :=
  countGo sep s.length s

/-- Python two-variable unpacking `a, b = lst`: succeeds exactly on lists of
length two, otherwise raises `ValueError`. -/
def unpack2 (l : List (List Char)) : Except NephosError (List Char × List Char) :=
  match l with
  | [a, b] => .ok (a, b)
  | _ => .error (.valueError "values to unpack")

/-- Lines 242-243 of `install_network`:
`bna_name, bna_rem = bna.split("_")` then
`bna_version, _ = bna_rem.split(".bna")`, yielding `(bna_name, bna_version)`. -/
def install_network_parse (bna : List Char) :
    Except NephosError (List Char × List Char) :=
  match unpack2 (splitOnSep ['_'] bna) with
  | .error e => .error e
  | .ok (bna_name, bna_rem) =>
    match unpack2 (splitOnSep ".bna".toList bna_rem) with
    | .error e => .error e
    | .ok (bna_version, _) => .ok (bna_name, bna_version)

/-- Does `needle` occur contiguously anywhere in the haystack? -/
def containsSub (needle : List Char) : List Char → Bool
  | [] => needle.isEmpty
  | c :: rest => needle.isPrefixOf (c :: rest) || containsSub needle rest

/-! ## Supporting lemmas -/

theorem strFoldl_shift (l : List String) :
    ∀ s : String, l.foldl (fun r t => r ++ t) s
      = s ++ l.foldl (fun r t => r ++ t) "" := by
  induction l with
  | nil => intro s; simp [List.foldl, String.append_empty]
  | cons a l ih =>
      intro s
      simp only [List.foldl]
      rw [ih (s ++ a), ih ("" ++ a), String.empty_append, String.append_assoc]

theorem strJoin_cons (a : String) (l : List String) :
    String.join (a :: l) = a ++ String.join l := by
  show List.foldl (fun r t => r ++ t) "" (a :: l) = a ++ String.join l
  simp only [List.foldl]
  rw [strFoldl_shift l ("" ++ a), String.empty_append]
  rfl

theorem strJoin_append (l₁ l₂ : List String) :
    String.join (l₁ ++ l₂) = String.join l₁ ++ String.join l₂ := by
  induction l₁ with
  | nil => simp [String.join, List.foldl, String.empty_append]
  | cons a l ih =>
      rw [List.cons_append, strJoin_cons, strJoin_cons, ih, String.append_assoc]

theorem append_ne_append_of_ne_front (p q a b : String)
    (hlen : p.length = q.length) (hne : p ≠ q) : p ++ a ≠ q ++ b := by
  intro h
  apply hne
  have hd := congrArg String.data h
  rw [String.data_append, String.data_append] at hd
  exact String.ext_iff.mpr (List.append_inj_left hd hlen)

theorem upgrade_command_ne_status_command (repo app release extra_vars r2 : String) :
    helm_upgrade_command repo app release extra_vars ≠ helm_status_command r2 := by
  unfold helm_upgrade_command helm_status_command
  have e1 : ("helm upgrade " : String) = "helm up" ++ "grade " := rfl
  have e2 : ("helm status " : String) = "helm st" ++ "atus " := rfl
  rw [e1, e2, String.append_assoc, String.append_assoc]
  exact append_ne_append_of_ne_front "helm up" "helm st" _ _ (by decide) (by decide)

theorem card_output_beq_empty (card : String) :
    (("Card " ++ card) == "") = false := by
  rw [beq_eq_false_iff_ne]
  intro hc
  have hlen := congrArg String.length hc
  rw [String.length_append] at hlen
  have h5 : ("Card " : String).length = 5 := rfl
  have h0 : ("" : String).length = 0 := rfl
  omega

theorem splitGo_length (sep : List Char) :
    ∀ fuel s acc, s.length ≤ fuel →
      (splitGo sep fuel s acc).length = countGo sep fuel s + 1 := by
  intro fuel
  induction fuel with
  | zero => intro s acc _; simp [splitGo, countGo]
  | succ n ih =>
      intro s acc hs
      cases s with
      | nil => simp [splitGo, countGo]
      | cons c rest =>
          have hr : rest.length ≤ n := by
            simp only [List.length_cons] at hs; omega
          by_cases hp : sep.isPrefixOf (c :: rest) = true
          · simp only [splitGo, countGo, hp, if_true, List.length_cons]
            have hd : (rest.drop (sep.length - 1)).length ≤ n := by
              rw [List.length_drop]; omega
            rw [ih _ [] hd]
          · simp only [splitGo, countGo, hp, if_false]
            exact ih rest _ hr

theorem splitOnSep_length (sep s : List Char) :
    (splitOnSep sep s).length = countOcc sep s + 1 :=
  splitGo_length sep s.length s [] (Nat.le_refl _)

theorem countGo_single (c : Char) :
    ∀ fuel s, s.length ≤ fuel → countGo [c] fuel s = s.count c := by
  intro fuel
  induction fuel with
  | zero => intro s hs; rw [List.length_eq_zero.mp (Nat.le_zero.mp hs)]; rfl
  | succ n ih =>
      intro s hs
      cases s with
      | nil => rfl
      | cons d rest =>
          have hr : rest.length ≤ n := by
            simp only [List.length_cons] at hs; omega
          by_cases hcd : c = d
          · subst hcd
            simp [countGo, List.isPrefixOf, ih rest hr, List.count_cons]
          · have hbeq : (c == d) = false := beq_eq_false_iff_ne.mpr hcd
            have hbeq2 : (d == c) = false := beq_eq_false_iff_ne.mpr (Ne.symm hcd)
            simp [countGo, List.isPrefixOf, hbeq, hbeq2, ih rest hr, List.count_cons]

theorem countOcc_single (c : Char) (s : List Char) :
    countOcc [c] s = s.count c :=
  countGo_single c s.length s (Nat.le_refl _)

theorem unpack2_eq_ok_iff (l : List (List Char)) (p : List Char × List Char) :
    unpack2 l = .ok p ↔ l = [p.1, p.2] := by
  obtain ⟨p1, p2⟩ := p
  cases l with
  | nil => simp [unpack2]
  | cons a t =>
      cases t with
      | nil => simp [unpack2]
      | cons b t2 =>
          cases t2 with
          | nil => simp [unpack2]
          | cons c t3 => simp [unpack2]

/-! ## The claims -/

/-- C1: for every release spec, calling `helm_upgrade` when the existence
probe `helm status <release>` returns nothing raises the fatal error
("Cannot update a Helm release that is not running") and issues no upgrade
command to the executor: the trace is exactly the single probe, and the
upgrade command is not in it. -/
theorem helm_upgrade_missing_release (exec : String → Option String)
    (repo app release extra_vars : String)
    (h : exec (helm_status_command release) = none) :
    helm_upgrade exec repo app release extra_vars
      = ([helm_status_command release],
         .error (.fatal "Cannot update a Helm release that is not running"))
    ∧ helm_upgrade_command repo app release extra_vars
        ∉ (helm_upgrade exec repo app release extra_vars).1 := by
  have htrace : helm_upgrade exec repo app release extra_vars
      = ([helm_status_command release],
         .error (.fatal "Cannot update a Helm release that is not running")) := by
    simp [helm_upgrade, h, pyTruthy]
  refine ⟨htrace, ?_⟩
  rw [htrace]
  simp only [List.mem_singleton]
  exact upgrade_command_ne_status_command repo app release extra_vars release

/-- Witness for C1 at a concrete executor on which every command fails. -/
theorem helm_upgrade_missing_release_witness :
    helm_upgrade (fun _ => none) "stable" "hl-composer" "cmp" ""
      = ([helm_status_command "cmp"],
         .error (.fatal "Cannot update a Helm release that is not running")) :=
  (helm_upgrade_missing_release (fun _ => none) "stable" "hl-composer" "cmp" "" rfl).1

/-- C2: for every release spec, calling `helm_install` when the release
already has status in the cluster (the probe is truthy) performs zero
executor calls beyond the single existence probe and returns without error;
two sequential calls therefore together issue the two probes and nothing
else, so repeated installs are idempotent. -/
theorem helm_install_existing_release (exec : String → Option String)
    (repo app release namespc extra_vars : String)
    (h : pyTruthy (exec (helm_status_command release)) = true) :
    helm_install exec repo app release namespc extra_vars
      = [helm_status_command release]
    ∧ helm_install exec repo app release namespc extra_vars
        ++ helm_install exec repo app release namespc extra_vars
      = [helm_status_command release, helm_status_command release] := by
  have h1 : helm_install exec repo app release namespc extra_vars
      = [helm_status_command release] := by
    simp [helm_install, h]
  exact ⟨h1, by rw [h1]; rfl⟩

/-- Witness for C2 at a concrete executor reporting the release deployed. -/
theorem helm_install_existing_release_witness :
    helm_install (fun _ => some "DEPLOYED") "stable" "hl-composer" "cmp" "peers" ""
      = [helm_status_command "cmp"] :=
  (helm_install_existing_release (fun _ => some "DEPLOYED")
    "stable" "hl-composer" "cmp" "peers" "" rfl).1

/-- C3: rendering a sequence of set-variables is order-preserving (the
rendered string is an append-homomorphism of the input sequence), each
variable renders as " --set key=value" with the "-string" suffix exactly
when its string-literal flag is set, and in particular
`[(k1,v1,False), (k2,v2,True)]` renders to
" --set k1=v1 --set-string k2=v2". -/
theorem helm_env_vars_rendering :
    (∀ xs ys : List HelmSet,
        helm_env_vars (xs ++ ys) = helm_env_vars xs ++ helm_env_vars ys)
    ∧ (∀ v : HelmSet,
        helm_env_vars [v]
          = " --set" ++ (if v.set_string then "-string" else "")
              ++ " " ++ v.key ++ "=" ++ v.value)
    ∧ (∀ k1 v1 k2 v2 : String,
        helm_env_vars [⟨k1, v1, false⟩, ⟨k2, v2, true⟩]
          = " --set " ++ k1 ++ "=" ++ v1
              ++ " --set-string " ++ k2 ++ "=" ++ v2) := by
  refine ⟨?_, ?_, ?_⟩
  · intro xs ys
    unfold helm_env_vars
    rw [List.map_append, strJoin_append]
  · intro v
    unfold helm_env_vars
    simp only [List.map_cons, List.map_nil]
    rw [strJoin_cons]
    show helmSetString v ++ "" = _
    rw [String.append_empty]
    rfl
  · intro k1 v1 k2 v2
    have e1 : (" --set " : String) = " --set" ++ " " := rfl
    have e2 : (" --set-string " : String) = " --set" ++ "-string" ++ " " := rfl
    rw [e1, e2]
    unfold helm_env_vars
    simp only [List.map_cons, List.map_nil]
    rw [strJoin_cons, strJoin_cons]
    show helmSetString ⟨k1, v1, false⟩
        ++ (helmSetString ⟨k2, v2, true⟩ ++ "") = _
    unfold helmSetString
    simp [String.append_assoc, String.empty_append, String.append_empty]

/-- C4: for every preserved-secret reference whose named secret exists and
contains the named data item, resolution produces exactly one set-variable:
key = the reference's `values_path`, value = the secret's value at the data
item, string-literal flag `false`; and the rendered string is the single
corresponding `--set` flag. -/
theorem helm_preserve_resolution (store : SecretStore) (ref : HelmPreserve)
    (data : List (String × String)) (v : String)
    (hsec : store.lookup (ref.secret_name, ref.secret_namespace) = some data)
    (hitem : data.lookup ref.data_item = some v) :
    helm_preserve_vars store [ref]
      = .ok [{ key := ref.values_path, value := v, set_string := false }]
    ∧ helm_preserve store [ref]
      = .ok (" --set " ++ ref.values_path ++ "=" ++ v) := by
  have h1 : helm_preserve_vars store [ref]
      = .ok [{ key := ref.values_path, value := v, set_string := false }] := by
    simp [helm_preserve_vars, secret_read, dictGet, hsec, hitem]
  refine ⟨h1, ?_⟩
  unfold helm_preserve
  rw [h1]
  have e1 : (" --set " : String) = " --set" ++ " " := rfl
  rw [e1]
  simp only [List.map_cons, List.map_nil]
  rw [strJoin_cons]
  show Except.ok (helmSetString ⟨ref.values_path, v, false⟩ ++ "") = _
  rw [String.append_empty]
  unfold helmSetString
  simp [String.append_assoc, String.empty_append]

/-- Witness for C4 at the spec's example: secret data
`COMPOSER_APIKEY = xyz`, values path `rest.config.apiKey`. -/
theorem helm_preserve_resolution_witness :
    helm_preserve_vars [(("cmp-hl-composer-rest", "peers"), [("COMPOSER_APIKEY", "xyz")])]
        [⟨"peers", "cmp-hl-composer-rest", "COMPOSER_APIKEY", "rest.config.apiKey"⟩]
      = .ok [{ key := "rest.config.apiKey", value := "xyz", set_string := false }] :=
  (helm_preserve_resolution
    [(("cmp-hl-composer-rest", "peers"), [("COMPOSER_APIKEY", "xyz")])]
    ⟨"peers", "cmp-hl-composer-rest", "COMPOSER_APIKEY", "rest.config.apiKey"⟩
    [("COMPOSER_APIKEY", "xyz")] "xyz" rfl rfl).1

/-- C5 counterexample: with the named secret present but the named data item
absent, preserved-secret resolution fails with a `KeyError` (from the Python
`dict` indexing `secret_data[item.data_item]`), not with a
ResourceNotFoundError, refuting the claim that both absence cases raise
ResourceNotFoundError. -/
theorem helm_preserve_missing_item_counterexample :
    helm_preserve [(("cmp-hl-composer-rest", "peers"), [("OTHER", "x")])]
        [⟨"peers", "cmp-hl-composer-rest", "COMPOSER_APIKEY", "rest.config.apiKey"⟩]
      = .error (.keyError "COMPOSER_APIKEY")
    ∧ (NephosError.keyError "COMPOSER_APIKEY").isResourceNotFound = false :=
  ⟨rfl, rfl⟩

/-- C5 (amended): for every preserved-secret reference, resolution is a hard
stop when the lookup fails — if the named secret is absent it fails with the
not-found error from `secret_read`, and if the secret exists but the data
item is absent it fails with a `KeyError`; in both cases no variable is
emitted and the remaining references are not processed. -/
theorem helm_preserve_absence_errors (store : SecretStore) (ref : HelmPreserve)
    (rest : List HelmPreserve) :
    (store.lookup (ref.secret_name, ref.secret_namespace) = none →
      helm_preserve_vars store (ref :: rest)
        = .error (.resourceNotFound ref.secret_name ref.secret_namespace))
    ∧ (∀ data, store.lookup (ref.secret_name, ref.secret_namespace) = some data →
        data.lookup ref.data_item = none →
        helm_preserve_vars store (ref :: rest)
          = .error (.keyError ref.data_item)) := by
  constructor
  · intro h
    simp [helm_preserve_vars, secret_read, h]
  · intro data hsec hitem
    simp [helm_preserve_vars, secret_read, dictGet, hsec, hitem]

/-- Witness for C5's amended statement at concrete stores: an empty cluster
(secret absent) and a cluster whose secret lacks the data item. -/
theorem helm_preserve_absence_errors_witness :
    helm_preserve_vars []
        [⟨"peers", "missing-secret", "COMPOSER_APIKEY", "rest.config.apiKey"⟩]
      = .error (.resourceNotFound "missing-secret" "peers")
    ∧ helm_preserve_vars [(("cmp-hl-composer-rest", "peers"), [])]
        [⟨"peers", "cmp-hl-composer-rest", "COMPOSER_APIKEY", "rest.config.apiKey"⟩]
      = .error (.keyError "COMPOSER_APIKEY") :=
  ⟨(helm_preserve_absence_errors []
      ⟨"peers", "missing-secret", "COMPOSER_APIKEY", "rest.config.apiKey"⟩ []).1 rfl,
   (helm_preserve_absence_errors [(("cmp-hl-composer-rest", "peers"), [])]
      ⟨"peers", "cmp-hl-composer-rest", "COMPOSER_APIKEY", "rest.config.apiKey"⟩ []).2
     [] rfl rfl⟩

/-- C6: archive-filename parsing maps "mynet_1.2.3.bna" to name "mynet" and
version "1.2.3", and raises a `ValueError` (failed tuple unpacking) on
"bad-format.bna", which has no underscore. -/
theorem install_network_parse_examples :
    install_network_parse "mynet_1.2.3.bna".toList
      = .ok ("mynet".toList, "1.2.3".toList)
    ∧ install_network_parse "bad-format.bna".toList
      = .error (.valueError "values to unpack") :=
  ⟨rfl, rfl⟩

/-- C7: the connection config-map setup first reads the map; only on the
not-found condition does it create the map with the synthesized
`connection.json` content. A first call on an absent map performs the create
and a second call on the result writes nothing and leaves the store
unchanged. -/
theorem composer_connection_idempotent (store : CMStore)
    (name namespc json : String)
    (h : store.lookup (name, namespc) = none) :
    composer_connection store name namespc json
      = (((name, namespc), [("connection.json", json)]) :: store, true)
    ∧ ((((name, namespc), [("connection.json", json)]) :: store).lookup
        (name, namespc) = some [("connection.json", json)])
    ∧ composer_connection (((name, namespc), [("connection.json", json)]) :: store)
        name namespc json
      = (((name, namespc), [("connection.json", json)]) :: store, false) := by
  refine ⟨?_, ?_, ?_⟩
  · simp [composer_connection, cm_read, cm_create, h]
  · simp [List.lookup]
  · simp [composer_connection, cm_read, List.lookup]

/-- Witness for C7 starting from an empty cluster. -/
theorem composer_connection_idempotent_witness :
    composer_connection [] "cmp-hlc-connection" "peers" "CONNECTION-JSON"
      = ([(("cmp-hlc-connection", "peers"),
           [("connection.json", "CONNECTION-JSON")])], true)
    ∧ composer_connection
        [(("cmp-hlc-connection", "peers"),
          [("connection.json", "CONNECTION-JSON")])]
        "cmp-hlc-connection" "peers" "CONNECTION-JSON"
      = ([(("cmp-hlc-connection", "peers"),
           [("connection.json", "CONNECTION-JSON")])], false) :=
  ⟨(composer_connection_idempotent [] "cmp-hlc-connection" "peers"
      "CONNECTION-JSON" rfl).1,
   (composer_connection_idempotent [] "cmp-hlc-connection" "peers"
      "CONNECTION-JSON" rfl).2.2⟩

/-- C8: the identity-card setup is idempotent. When the card-list probe
finds no existing card, the pod executes list, create and import (in that
order); running `setup_card` again on the resulting pod state executes only
the list-check, so two sequential invocations issue create+import exactly
once. -/
theorem setup_card_idempotent (st : PodState) (msp_path user_name : String)
    (roles : List String) (network : Option String)
    (h : (user_name ++ "@" ++ pyStr network) ∉ st.cards) :
    (setup_card st msp_path user_name roles network).2
      = [card_list_command user_name network,
         card_create_command msp_path user_name roles network,
         card_import_command user_name network]
    ∧ (setup_card (setup_card st msp_path user_name roles network).1
        msp_path user_name roles network).2
      = [card_list_command user_name network] := by
  constructor
  · simp [setup_card, card_list_result, h, pyTruthy]
  · simp [setup_card, card_list_result, h, pyTruthy, card_output_beq_empty]

/-- Witness for C8 on a pod with no cards, using the `setup_admin`
arguments. -/
theorem setup_card_idempotent_witness :
    (setup_card ⟨[]⟩ "/hl_config/admin" "PeerAdmin"
        ["PeerAdmin", "ChannelAdmin"] none).2
      = [card_list_command "PeerAdmin" none,
         card_create_command "/hl_config/admin" "PeerAdmin"
           ["PeerAdmin", "ChannelAdmin"] none,
         card_import_command "PeerAdmin" none]
    ∧ (setup_card (setup_card ⟨[]⟩ "/hl_config/admin" "PeerAdmin"
          ["PeerAdmin", "ChannelAdmin"] none).1
        "/hl_config/admin" "PeerAdmin" ["PeerAdmin", "ChannelAdmin"] none).2
      = [card_list_command "PeerAdmin" none] :=
  setup_card_idempotent ⟨[]⟩ "/hl_config/admin" "PeerAdmin"
    ["PeerAdmin", "ChannelAdmin"] none (List.not_mem_nil _)

/-- C9 counterexample: the listing ".bna_x.bna" contains exactly one
underscore but two occurrences of ".bna", yet parsing succeeds (with name
".bna" and version "x") instead of raising an error, refuting the claim
that every listing with multiple ".bna" occurrences fails to unpack. -/
theorem install_network_parse_counterexample :
    countOcc ['_'] ".bna_x.bna".toList = 1
    ∧ countOcc ".bna".toList ".bna_x.bna".toList = 2
    ∧ install_network_parse ".bna_x.bna".toList
      = .ok (".bna".toList, "x".toList) :=
  ⟨rfl, rfl, rfl⟩

/-- C9 (amended): archive-filename parsing succeeds exactly when the listing
contains exactly one underscore and the part after the underscore contains
exactly one occurrence of ".bna"; for every other listing (two or more
underscores, no underscore, or a post-underscore part with zero or several
".bna" occurrences) the unpacking raises an error. Occurrences of ".bna"
before the underscore are irrelevant. The underscore-occurrence count
agrees with the plain character count. -/
theorem install_network_parse_success_iff (s : List Char) :
    ((∃ nv, install_network_parse s = .ok nv) ↔
      (countOcc ['_'] s = 1
       ∧ ∃ name rem, splitOnSep ['_'] s = [name, rem]
           ∧ countOcc ".bna".toList rem = 1))
    ∧ countOcc ['_'] s = s.count '_' := by
  refine ⟨?_, countOcc_single '_' s⟩
  constructor
  · rintro ⟨nv, h⟩
    unfold install_network_parse at h
    cases h1 : unpack2 (splitOnSep ['_'] s) with
    | error e => rw [h1] at h; simp at h
    | ok p =>
        obtain ⟨name, rem⟩ := p
        rw [h1] at h
        simp only at h
        cases h2 : unpack2 (splitOnSep ".bna".toList rem) with
        | error e => rw [h2] at h; simp at h
        | ok q =>
            have hl1 : splitOnSep ['_'] s = [name, rem] :=
              (unpack2_eq_ok_iff _ _).mp h1
            have hl2 : splitOnSep ".bna".toList rem = [q.1, q.2] :=
              (unpack2_eq_ok_iff _ _).mp h2
            refine ⟨?_, name, rem, hl1, ?_⟩
            · have hlen := splitOnSep_length ['_'] s
              rw [hl1] at hlen
              simp only [List.length_cons, List.length_nil] at hlen
              omega
            · have hlen := splitOnSep_length ".bna".toList rem
              rw [hl2] at hlen
              simp only [List.length_cons, List.length_nil] at hlen
              omega
  · rintro ⟨_, name, rem, hsplit, hc2⟩
    have hlen2 : (splitOnSep ".bna".toList rem).length = 2 := by
      rw [splitOnSep_length, hc2]
    obtain ⟨v, r, hvr⟩ := List.length_eq_two.mp hlen2
    refine ⟨(name, v), ?_⟩
    unfold install_network_parse
    rw [hsplit]
    simp only [unpack2]
    rw [hvr]

/-- C10: with `network` absent (`None`), the create-card command omits the
"-n" network flag entirely, while the card-list probe, the create-card
output file path, and the import-card file path all interpolate the literal
string "None" into the card identifier; and `setup_admin` always takes
exactly this network-absent path of `setup_card`. For the concrete
`setup_admin` arguments the create command contains no "-n " substring at
all. -/
theorem setup_card_network_none (st : PodState) (msp_path user_name : String)
    (roles : List String) :
    card_list_command user_name none
      = "composer card list --card " ++ user_name ++ "@" ++ "None"
    ∧ card_create_command msp_path user_name roles none
      = "composer card create "
          ++ "-p /hl_config/hlc-connection/connection.json "
          ++ "-u " ++ user_name ++ " -c " ++ msp_path ++ "/signcerts/cert.pem "
          ++ "-k " ++ msp_path ++ "/keystore/key.pem "
          ++ roles_string roles
          ++ "--file /home/composer/" ++ user_name ++ "@" ++ "None"
    ∧ card_import_command user_name none
      = "composer card import --file /home/composer/"
          ++ user_name ++ "@" ++ "None" ++ ".card"
    ∧ containsSub "-n ".toList
        (card_create_command "/hl_config/admin" "PeerAdmin"
          ["PeerAdmin", "ChannelAdmin"] none).toList = false
    ∧ setup_admin st
      = setup_card st "/hl_config/admin" "PeerAdmin"
          ["PeerAdmin", "ChannelAdmin"] none := by
  refine ⟨rfl, ?_, rfl, by decide, rfl⟩
  unfold card_create_command
  simp [pyTruthy, pyStr, String.empty_append]

end Nephos
